import Mathlib

/-!
Verification of the ipc-race repository's mutual-exclusion lock and
race-harness protocol against its specification.

The embedding models the filesystem cell behind a lock-marker path as an
`Option String` (absent, or present with its text content), the `FileMutex`
class's methods as pure functions over that cell (with nondeterministic
environment observations where concurrent processes interleave), and the
harness orchestrators' verification and teardown steps as pure functions of
the final resource state.
-/

/-- Content of one filesystem path: `none` when the file is absent,
`some c` when it exists with text content `c`. -/
abbrev FsCell := Option String

namespace FileMutex

/-- Lock-file path derived from the lock name, as the constructor builds it. -/
def lockFile (name : String) : String := "/tmp/" ++ name ++ ".lock"

/-- Default `maxRetries` of the constructor. -/
def defaultMaxRetries : Nat := 100

/-- Default `retryDelay` (milliseconds) of the constructor. -/
def defaultRetryDelay : Nat := 10

/-- Outcome of one iteration of the `acquire` retry loop, as observed by the
calling process: `free_created` means `existsSync` saw no file and the
exclusive (`wx`) write succeeded; `free_lost` means `existsSync` saw no file
but the `wx` write threw because another process created the file in
between (the `catch` branch); `occupied` means `existsSync` saw the file. -/
inductive Attempt
  | free_created
  | free_lost
  | occupied
deriving DecidableEq, Repr

/-- What one full `acquire()` call did: its boolean result, how many loop
iterations ran, how many fixed `retryDelay` sleeps it performed, and the
content it wrote into the lock marker (if any). -/
structure AcqResult where
  ok : Bool
  attemptsUsed : Nat
  sleeps : Nat
  wrote : Option String
deriving DecidableEq, Repr

/-- The retry loop of `FileMutex.acquire`, folded over the per-iteration
environment observations; the list length is the loop bound `maxRetries`.
A `free_created` iteration writes the caller's pid and returns true at once;
the other two outcomes sleep for `retryDelay` and move to the next
iteration; an exhausted list is the loop falling through to `return false`. -/
def retryIter (r : AcqResult) : AcqResult :=
  ⟨r.ok, r.attemptsUsed + 1, r.sleeps + 1, r.wrote⟩

def acquireLoop (pid : String) : List Attempt → AcqResult
  | [] => ⟨false, 0, 0, none⟩
  | Attempt.free_created :: _ => ⟨true, 1, 0, some pid⟩
  | Attempt.free_lost :: rest => retryIter (acquireLoop pid rest)
  | Attempt.occupied :: rest => retryIter (acquireLoop pid rest)

/-- `acquire()` with bound `maxRetries`, the environment giving the outcome
of iteration `t` as `env t`. -/
def acquire (pid : String) (maxRetries : Nat) (env : Nat → Attempt) : AcqResult :=
  acquireLoop pid ((List.range maxRetries).map env)

/-- `release()` acting on the lock-file cell in the error-free case:
`existsSync` false does nothing; otherwise the stored owner is read and the
file unlinked exactly when it equals the caller's own pid string. -/
def releaseCell (fs : FsCell) (pid : String) : FsCell :=
  match fs with
  | none => none
  | some owner => if owner = pid then none else some owner

/-- Error-injection oracle for the three filesystem calls `release` and
`cleanup` make: each either returns its value or throws. -/
structure FsOracle where
  existsResult : Except String Bool
  readResult : Except String String
  unlinkResult : Except String Unit

/-- Body of `release()` without the surrounding try/catch: check existence,
read the owner, compare with the caller's pid, unlink on a match. -/
def releaseBody (o : FsOracle) (pid : String) : Except String Unit := do
  let ex ← o.existsResult
  if ex then
    let owner ← o.readResult
    if owner = pid then o.unlinkResult
    else pure ()
  else pure ()

/-- `release()` as the caller sees it: the try/catch swallows every error. -/
def releaseCall (o : FsOracle) (pid : String) : Except String Unit :=
  match releaseBody o pid with
  | Except.ok u => Except.ok u
  | Except.error _ => Except.ok ()

/-- Body of `cleanup()` without the surrounding try/catch: check existence
and unlink unconditionally (no ownership check). -/
def cleanupBody (o : FsOracle) : Except String Unit := do
  let ex ← o.existsResult
  if ex then o.unlinkResult
  else pure ()

/-- `cleanup()` as the caller sees it: the try/catch swallows every error. -/
def cleanupCall (o : FsOracle) : Except String Unit :=
  match cleanupBody o with
  | Except.ok u => Except.ok u
  | Except.error _ => Except.ok ()

/-- The `wx` open flag (create-exclusive): atomically create the file with
the given content, throwing when the file already exists. -/
def wxWrite (fs : FsCell) (content : String) : Except Unit FsCell :=
  match fs with
  | some _ => Except.error ()
  | none => Except.ok (some content)

/-- How one loop iteration of `acquire` ends: the lock was acquired (the
call returns true), or the iteration retries after the `retryDelay` sleep. -/
inductive AttemptStep
  | acquired
  | retry
deriving DecidableEq, Repr

/-- One iteration of the `acquire` loop with the filesystem observed
separately at the non-atomic `existsSync` pre-check (`fsA`) and at the
`wx` write (`fsB`), since another process may create the file in between.
Returns how the iteration ended and the resulting filesystem cell. -/
def acquireAttempt (fsA fsB : FsCell) (pid : String) : AttemptStep × FsCell :=
  if fsA.isSome then (AttemptStep.retry, fsB)
  else
    match wxWrite fsB pid with
    | Except.ok fs' => (AttemptStep.acquired, fs')
    | Except.error _ => (AttemptStep.retry, fsB)

end FileMutex

namespace FileMutex

/-- Phase of one worker process in the acquire/release protocol on a shared
lock name: still inside the retry loop with that many iterations left,
holding the lock (its `acquire` returned true and it has not yet released),
returned false after exhausting the retries, or done after releasing. -/
inductive Phase
  | trying (attemptsLeft : Nat)
  | holding
  | failed
  | released
deriving DecidableEq, Repr

/-- Global state of `n` processes contending for one lock name: the lock
marker cell (owner's process index when present) and each process's phase. -/
structure Sys (n : Nat) where
  lock : Option (Fin n)
  phase : Fin n → Phase

/-- Start state: no marker on disk, every process about to run its retry
loop with the full `maxRetries` budget. -/
def Sys.start (n maxRetries : Nat) : Sys n :=
  ⟨none, fun _ => Phase.trying maxRetries⟩

/-- One atomic action of process `i` against the shared lock cell, as the
interleaving semantics of `acquire`/`release`. `create` is the kernel-atomic
`wx` create succeeding on an absent file (the only step that can produce a
marker, giving it owner `i`). `retryStep` is an iteration that did not
acquire (the `existsSync` pre-check saw a file, or the `wx` write lost the
race and threw): nothing on disk changes, one retry is consumed. `exhaust`
is the loop falling through to `return false`. `releaseStep` is the holder
running `release()`: the marker is removed exactly when it still names `i`. -/
inductive Step {n : Nat} (i : Fin n) : Sys n → Sys n → Prop
  | create {s : Sys n} (k : Nat)
      (hp : s.phase i = Phase.trying (k + 1)) (hl : s.lock = none) :
      Step i s ⟨some i, Function.update s.phase i Phase.holding⟩
  | retryStep {s : Sys n} (k : Nat)
      (hp : s.phase i = Phase.trying (k + 1)) :
      Step i s ⟨s.lock, Function.update s.phase i (Phase.trying k)⟩
  | exhaust {s : Sys n}
      (hp : s.phase i = Phase.trying 0) :
      Step i s ⟨s.lock, Function.update s.phase i Phase.failed⟩
  | releaseStep {s : Sys n}
      (hp : s.phase i = Phase.holding) :
      Step i s ⟨if s.lock = some i then none else s.lock,
        Function.update s.phase i Phase.released⟩

/-- Some process takes a step. -/
def SysStep {n : Nat} (s sNew : Sys n) : Prop := ∃ i, Step i s sNew

/-- States reachable from the start state by interleaved steps. -/
def Reachable (n maxRetries : Nat) (s : Sys n) : Prop :=
  Relation.ReflTransGen SysStep (Sys.start n maxRetries) s

/-- The ownership invariant: a process believes it holds the lock only when
the marker on disk names it. -/
def LockInv {n : Nat} (s : Sys n) : Prop :=
  ∀ i : Fin n, s.phase i = Phase.holding → s.lock = some i

/-- Retry budgets never exceed the configured bound. -/
def BudgetInv {n : Nat} (maxRetries : Nat) (s : Sys n) : Prop :=
  ∀ (i : Fin n) (k : Nat), s.phase i = Phase.trying k → k ≤ maxRetries

/-- Progress measure on a process's phase: every step a process takes
strictly decreases it, so a caller of `acquire` returns (true or false)
after finitely many of its own steps. -/
def Phase.toMeasure : Phase → Nat
  | Phase.trying k => k + 2
  | Phase.holding => 1
  | Phase.failed => 0
  | Phase.released => 0

end FileMutex

namespace Harness

/-- Shared counter state, the parsed content of the counter artifact. -/
structure CounterState where
  value : Int
deriving DecidableEq, Repr

/-- State `initializeCounter` writes before the workers are spawned. -/
def initialCounterState : CounterState := ⟨0⟩

/-- One bank account of the accounts artifact. -/
structure Account where
  id : Nat
  balance : Int
deriving DecidableEq, Repr

/-- Verification record the counter orchestrator computes after the workers
finish. -/
structure CounterVerification where
  expected : Int
  lost : Int
  raceDetected : Bool
deriving DecidableEq, Repr

/-- `numWorkers` of `demonstrateCounterRace`. -/
def numWorkers : Nat := 5

/-- `incrementsPerWorker` of `demonstrateCounterRace`. -/
def incrementsPerWorker : Nat := 20

/-- Verification step of `demonstrateCounterRace`: expected is
`numWorkers * incrementsPerWorker`, the lost-update count is
`expected - actual`, and a race is reported exactly on `actual < expected`. -/
def counterVerify (actual : Int) : CounterVerification :=
  let expected : Int := ((numWorkers * incrementsPerWorker : Nat) : Int)
  ⟨expected, expected - actual, decide (actual < expected)⟩

/-- The spec's expected-value formula instantiated at the concrete counter
demo: initial value 0, five workers, each twenty repetitions of delta 1. -/
def counterExpectedSpec : Int :=
  0 + (List.replicate numWorkers ((incrementsPerWorker : Int) * 1)).sum

/-- `INITIAL_BALANCE` of the bank demos. -/
def INITIAL_BALANCE : Int := 1000

/-- `withdrawAmount` used by `demonstrateBankRace`. -/
def withdrawAmount : Int := 300

/-- Race verdict of `demonstrateBankRace` on the final balance: negative
balance, or total withdrawn above the initial balance, or the division
`totalWithdrawn / withdrawAmount` leaving a remainder (the source computes
the quotient as a JS number and tests its remainder modulo one; on integer
balances that test is exactly non-divisibility by `withdrawAmount`). -/
def bankRaceDetected (actual : Int) : Bool :=
  let totalWithdrawn := INITIAL_BALANCE - actual
  decide (actual < 0) || decide (totalWithdrawn > INITIAL_BALANCE) ||
    !(decide (withdrawAmount ∣ totalWithdrawn))

/-- The race condition the claim requires the verdict to flag, following
the spec's words: the withdrawn total must be `successCount * withdrawAmount`
for some non-negative integer `successCount`. -/
def bankRaceClaimRequired (actual : Int) : Prop :=
  actual < 0 ∨ INITIAL_BALANCE - actual > INITIAL_BALANCE ∨
    ¬ ∃ successCount : Nat,
      INITIAL_BALANCE - actual = (successCount : Int) * withdrawAmount

/-- The files one demo run touches: the durable resource artifact and the
demo's lock marker. -/
structure DemoFiles where
  resourceFile : Option String
  lockMarker : Option String
deriving DecidableEq, Repr

/-- The `cleanup()` helper of the counter and bank orchestrators: unlink the
resource artifact when it exists; lock markers are not touched. -/
def cleanup (fs : DemoFiles) : DemoFiles :=
  if fs.resourceFile.isSome then { fs with resourceFile := none } else fs

/-- The two ways control leaves a `demonstrate*` orchestrator: the try-block
runs to its return, or an error is caught by the catch-block. -/
inductive RunPath
  | success
  | caught
deriving DecidableEq, Repr

/-- Teardown behavior of the orchestrators: both the success return and the
catch branch invoke `cleanup()` before returning. -/
def demoTeardown (p : RunPath) (fs : DemoFiles) : DemoFiles :=
  match p with
  | RunPath.success => cleanup fs
  | RunPath.caught => cleanup fs

/-- `readCounter` of the counter orchestrators: `none` models a missing or
unparseable artifact (the catch branch), which yields the zero default. -/
def readCounter (raw : Option CounterState) : CounterState :=
  match raw with
  | some st => st
  | none => ⟨0⟩

/-- `readAccounts` of the bank orchestrators: a missing or unparseable
artifact yields the empty account list. -/
def readAccounts (raw : Option (List Account)) : List Account :=
  match raw with
  | some accounts => accounts
  | none => []

/-- Modelled from the spec: the mid-run read policy the claim asserts (the
repository's read helpers do not implement it) — a missing or corrupt
artifact on a mid-run read is surfaced as a read failure instead of
defaulting. -/
def readCounterClaimed (raw : Option CounterState) : Except String CounterState :=
  match raw with
  | some st => Except.ok st
  | none => Except.error "read failure"

/-- Loop of the mutex-protected counter worker (`worker-mutex.ts`): for each
repetition the worker calls `acquire`; on false it logs and continues to the
next repetition, on true it increments inside the critical section. The
result is the pair of increments performed and the process exit status. -/
def counterMutexWorker : List Bool → Nat × Nat
  | [] => (0, 0)
  | acquired :: rest =>
      let r := counterMutexWorker rest
      if acquired then (r.1 + 1, r.2) else (r.1, r.2)

/-- Exit status of the mutex-protected bank withdrawer
(`withdrawer-mutex.ts`): a failed `acquire` exits with status 1; otherwise
the withdrawal runs and the process completes with status 0. -/
def withdrawerMutexExit (acquired : Bool) : Nat :=
  if acquired then 0 else 1

end Harness

namespace FileMutex

theorem lockInv_start (n m : Nat) : LockInv (Sys.start n m) := by
  intro i hi
  simp [Sys.start] at hi

theorem lockInv_step {n : Nat} {s sNew : Sys n} (h : SysStep s sNew)
    (inv : LockInv s) : LockInv sNew := by
  obtain ⟨i, hstep⟩ := h
  cases hstep with
  | create k hp hl =>
      intro j hj
      by_cases hij : j = i
      · subst hij
        rfl
      · exfalso
        have hj' : s.phase j = Phase.holding := by
          have h0 : Function.update s.phase i Phase.holding j = Phase.holding := hj
          rwa [Function.update_noteq hij] at h0
        have hl' := inv j hj'
        rw [hl] at hl'
        exact Option.noConfusion hl'
  | retryStep k hp =>
      intro j hj
      by_cases hij : j = i
      · subst hij
        have h0 : Function.update s.phase j (Phase.trying k) j = Phase.holding := hj
        rw [Function.update_same] at h0
        exact absurd h0 (by simp)
      · have hj' : s.phase j = Phase.holding := by
          have h0 : Function.update s.phase i (Phase.trying k) j = Phase.holding := hj
          rwa [Function.update_noteq hij] at h0
        exact inv j hj'
  | exhaust hp =>
      intro j hj
      by_cases hij : j = i
      · subst hij
        have h0 : Function.update s.phase j Phase.failed j = Phase.holding := hj
        rw [Function.update_same] at h0
        exact absurd h0 (by simp)
      · have hj' : s.phase j = Phase.holding := by
          have h0 : Function.update s.phase i Phase.failed j = Phase.holding := hj
          rwa [Function.update_noteq hij] at h0
        exact inv j hj'
  | releaseStep hp =>
      intro j hj
      by_cases hij : j = i
      · subst hij
        have h0 : Function.update s.phase j Phase.released j = Phase.holding := hj
        rw [Function.update_same] at h0
        exact absurd h0 (by simp)
      · exfalso
        have hj' : s.phase j = Phase.holding := by
          have h0 : Function.update s.phase i Phase.released j = Phase.holding := hj
          rwa [Function.update_noteq hij] at h0
        have hlj := inv j hj'
        have hli := inv i hp
        rw [hli] at hlj
        exact hij (Option.some.inj hlj).symm

theorem reachable_lockInv {n m : Nat} {s : Sys n} (h : Reachable n m s) :
    LockInv s := by
  have h' : Relation.ReflTransGen SysStep (Sys.start n m) s := h
  clear h
  induction h' with
  | refl => exact lockInv_start n m
  | tail _ hstep ih => exact lockInv_step hstep ih

theorem budgetInv_start (n m : Nat) : BudgetInv m (Sys.start n m) := by
  intro i k hk
  simp [Sys.start] at hk
  omega

theorem budgetInv_step {n m : Nat} {s sNew : Sys n} (h : SysStep s sNew)
    (inv : BudgetInv m s) : BudgetInv m sNew := by
  obtain ⟨i, hstep⟩ := h
  cases hstep with
  | create k0 hp hl =>
      intro j k hk
      by_cases hij : j = i
      · subst hij
        have h0 : Function.update s.phase j Phase.holding j = Phase.trying k := hk
        rw [Function.update_same] at h0
        exact absurd h0 (by simp)
      · have h0 : s.phase j = Phase.trying k := by
          have h1 : Function.update s.phase i Phase.holding j = Phase.trying k := hk
          rwa [Function.update_noteq hij] at h1
        exact inv j k h0
  | retryStep k0 hp =>
      intro j k hk
      by_cases hij : j = i
      · subst hij
        have h0 : Function.update s.phase j (Phase.trying k0) j = Phase.trying k := hk
        rw [Function.update_same] at h0
        have hk0 := inv j (k0 + 1) hp
        injection h0 with h0
        omega
      · have h0 : s.phase j = Phase.trying k := by
          have h1 : Function.update s.phase i (Phase.trying k0) j = Phase.trying k := hk
          rwa [Function.update_noteq hij] at h1
        exact inv j k h0
  | exhaust hp =>
      intro j k hk
      by_cases hij : j = i
      · subst hij
        have h0 : Function.update s.phase j Phase.failed j = Phase.trying k := hk
        rw [Function.update_same] at h0
        exact absurd h0 (by simp)
      · have h0 : s.phase j = Phase.trying k := by
          have h1 : Function.update s.phase i Phase.failed j = Phase.trying k := hk
          rwa [Function.update_noteq hij] at h1
        exact inv j k h0
  | releaseStep hp =>
      intro j k hk
      by_cases hij : j = i
      · subst hij
        have h0 : Function.update s.phase j Phase.released j = Phase.trying k := hk
        rw [Function.update_same] at h0
        exact absurd h0 (by simp)
      · have h0 : s.phase j = Phase.trying k := by
          have h1 : Function.update s.phase i Phase.released j = Phase.trying k := hk
          rwa [Function.update_noteq hij] at h1
        exact inv j k h0

theorem reachable_budgetInv {n m : Nat} {s : Sys n} (h : Reachable n m s) :
    BudgetInv m s := by
  have h' : Relation.ReflTransGen SysStep (Sys.start n m) s := h
  clear h
  induction h' with
  | refl => exact budgetInv_start n m
  | tail _ hstep ih => exact budgetInv_step hstep ih

theorem step_measure {n : Nat} {i : Fin n} {s sNew : Sys n} (h : Step i s sNew) :
    Phase.toMeasure (sNew.phase i) < Phase.toMeasure (s.phase i) := by
  cases h with
  | create k hp hl =>
      show Phase.toMeasure (Function.update s.phase i Phase.holding i) < _
      rw [Function.update_same, hp]
      simp only [Phase.toMeasure]
      omega
  | retryStep k hp =>
      show Phase.toMeasure (Function.update s.phase i (Phase.trying k) i) < _
      rw [Function.update_same, hp]
      simp only [Phase.toMeasure]
      omega
  | exhaust hp =>
      show Phase.toMeasure (Function.update s.phase i Phase.failed i) < _
      rw [Function.update_same, hp]
      simp only [Phase.toMeasure]
      omega
  | releaseStep hp =>
      show Phase.toMeasure (Function.update s.phase i Phase.released i) < _
      rw [Function.update_same, hp]
      simp only [Phase.toMeasure]
      omega

/-- A state in which some process holds the lock is reachable (with two
processes and a three-retry budget, process 0 acquires in one step), so the
mutual-exclusion and ownership invariants below are not vacuous. -/
theorem holding_reachable :
    Reachable 2 3
      ⟨some 0, Function.update (Sys.start 2 3).phase 0 Phase.holding⟩ :=
  Relation.ReflTransGen.single ⟨(0 : Fin 2), Step.create 2 rfl rfl⟩

end FileMutex

namespace FileMutex

theorem acquireLoop_ok_iff (pid : String) (l : List Attempt) :
    (acquireLoop pid l).ok = true ↔ Attempt.free_created ∈ l := by
  induction l with
  | nil => simp [acquireLoop]
  | cons a rest ih => cases a <;> simp [acquireLoop, retryIter, ih]

theorem acquireLoop_attempts_le (pid : String) (l : List Attempt) :
    (acquireLoop pid l).attemptsUsed ≤ l.length := by
  induction l with
  | nil => simp [acquireLoop]
  | cons a rest ih => cases a <;> simp [acquireLoop, retryIter] <;> omega

theorem acquireLoop_ok_props (pid : String) (l : List Attempt) :
    ((acquireLoop pid l).ok = true →
      (acquireLoop pid l).wrote = some pid ∧
      (acquireLoop pid l).sleeps + 1 = (acquireLoop pid l).attemptsUsed) ∧
    ((acquireLoop pid l).ok = false →
      (acquireLoop pid l).wrote = none ∧
      (acquireLoop pid l).attemptsUsed = l.length ∧
      (acquireLoop pid l).sleeps = l.length) := by
  induction l with
  | nil => simp [acquireLoop]
  | cons a rest ih =>
      obtain ⟨ih1, ih2⟩ := ih
      cases a with
      | free_created => simp [acquireLoop]
      | free_lost =>
          constructor
          · intro h
            have h' : (acquireLoop pid rest).ok = true := by
              simpa [acquireLoop, retryIter] using h
            obtain ⟨hw, hs⟩ := ih1 h'
            simp [acquireLoop, retryIter, hw]
            omega
          · intro h
            have h' : (acquireLoop pid rest).ok = false := by
              simpa [acquireLoop, retryIter] using h
            obtain ⟨hw, ha, hs⟩ := ih2 h'
            simp [acquireLoop, retryIter, hw, ha, hs]
      | occupied =>
          constructor
          · intro h
            have h' : (acquireLoop pid rest).ok = true := by
              simpa [acquireLoop, retryIter] using h
            obtain ⟨hw, hs⟩ := ih1 h'
            simp [acquireLoop, retryIter, hw]
            omega
          · intro h
            have h' : (acquireLoop pid rest).ok = false := by
              simpa [acquireLoop, retryIter] using h
            obtain ⟨hw, ha, hs⟩ := ih2 h'
            simp [acquireLoop, retryIter, hw, ha, hs]

end FileMutex

open FileMutex Harness

/-- C1: in the interleaving semantics of N processes calling
`FileMutex.acquire` on one lock name, (1) at most one process is in the
holding phase (believes `acquire` returned true without an intervening
release) in any reachable state; (2) the lock marker names at most one owner
at any instant; (3) retry budgets never exceed `maxRetries` in any reachable
state; and (4) every step a process takes strictly decreases its progress
measure, so each caller returns true (holding) or false (failed) after
finitely many of its own steps — it cannot loop beyond its retries. -/
theorem fileMutex_mutual_exclusion (n maxRetries : Nat) :
    (∀ s : Sys n, Reachable n maxRetries s →
      ∀ i j : Fin n, s.phase i = Phase.holding → s.phase j = Phase.holding →
        i = j) ∧
    (∀ s : Sys n, ∀ i j : Fin n, s.lock = some i → s.lock = some j → i = j) ∧
    (∀ s : Sys n, Reachable n maxRetries s → BudgetInv maxRetries s) ∧
    (∀ (i : Fin n) (s sNew : Sys n), Step i s sNew →
      Phase.toMeasure (sNew.phase i) < Phase.toMeasure (s.phase i)) := by
  refine ⟨?_, ?_, ?_, ?_⟩
  · intro s hr i j hi hj
    have inv := reachable_lockInv hr
    have h1 := inv i hi
    have h2 := inv j hj
    rw [h1] at h2
    exact Option.some.inj h2
  · intro s i j hi hj
    rw [hi] at hj
    exact Option.some.inj hj
  · intro s hr
    exact reachable_budgetInv hr
  · intro i s sNew hstep
    exact step_measure hstep

/-- C2: `FileMutex.acquire` runs at most `maxRetries` loop iterations; it
returns true exactly when some iteration within the bound created the
marker, in which case it wrote the caller's own pid into it; when every
iteration fails it returns false, wrote nothing, and used exactly
`maxRetries` attempts; failed iterations each sleep once for the fixed
`retryDelay` (so successive attempts are separated by that fixed delay). -/
theorem acquire_retry_contract (pid : String) (maxRetries : Nat)
    (env : Nat → Attempt) :
    (acquire pid maxRetries env).attemptsUsed ≤ maxRetries ∧
    ((acquire pid maxRetries env).ok = true ↔
      ∃ t, t < maxRetries ∧ env t = Attempt.free_created) ∧
    ((acquire pid maxRetries env).ok = true →
      (acquire pid maxRetries env).wrote = some pid ∧
      (acquire pid maxRetries env).sleeps + 1 =
        (acquire pid maxRetries env).attemptsUsed) ∧
    ((acquire pid maxRetries env).ok = false →
      (acquire pid maxRetries env).wrote = none ∧
      (acquire pid maxRetries env).attemptsUsed = maxRetries ∧
      (acquire pid maxRetries env).sleeps = maxRetries) := by
  unfold acquire
  refine ⟨?_, ?_, (acquireLoop_ok_props pid _).1, ?_⟩
  · have h := acquireLoop_attempts_le pid ((List.range maxRetries).map env)
    simpa using h
  · rw [acquireLoop_ok_iff]
    simp [List.mem_map, List.mem_range]
  · intro h
    have h' := (acquireLoop_ok_props pid ((List.range maxRetries).map env)).2 h
    simpa using h'

/-- C2 witness: with the first iteration seeing the marker occupied and the
second creating it, `acquire` succeeds in two attempts, one sleep, and
writes pid 42. -/
theorem acquire_retry_contract_witness :
    (acquire "42" 2 (fun t => if t = 0 then Attempt.occupied
      else Attempt.free_created)).wrote = some "42" :=
  ((acquire_retry_contract "42" 2 (fun t => if t = 0 then Attempt.occupied
      else Attempt.free_created)).2.2.1 rfl).1

/-- C3: `FileMutex.release` deletes the lock marker if and only if the
marker exists and its stored content equals the caller's own pid; when the
stored identity differs or the marker is absent the filesystem cell is left
unchanged; and the only effect release can ever have is deletion (it never
rewrites the marker to other content). -/
theorem release_ownership (fs : FsCell) (pid : String) :
    (releaseCell fs pid = none ∧ fs ≠ none ↔ fs = some pid) ∧
    (fs ≠ some pid → releaseCell fs pid = fs) ∧
    (releaseCell fs pid = none ∨ releaseCell fs pid = fs) := by
  rcases fs with _ | owner
  · simp [releaseCell]
  · by_cases h : owner = pid
    · subst h
      simp [releaseCell]
    · simp [releaseCell, h]

/-- C3 witness: a marker owned by pid 8 survives a release by pid 7
unchanged. -/
theorem release_ownership_witness :
    releaseCell (some "8") "7" = some "8" :=
  (release_ownership (some "8") "7").2.1 (by simp)

/-- C4: the counter harness verification computes
expected = initial + sum of repetitions times delta over the workers
(which is 100 for the demo's initial 0, five workers, twenty increments of
delta 1), reports lost = expected - actual, and reports a race exactly when
actual < expected; an actual above expected is never reported as a race. -/
theorem counter_race_verification (actual : Int) :
    (counterVerify actual).expected = counterExpectedSpec ∧
    (counterVerify actual).expected = 100 ∧
    (counterVerify actual).lost = 100 - actual ∧
    ((counterVerify actual).raceDetected = true ↔ actual < 100) ∧
    (100 < actual → (counterVerify actual).raceDetected = false) := by
  have h100 : ((numWorkers * incrementsPerWorker : Nat) : Int) = 100 := by
    norm_num [numWorkers, incrementsPerWorker]
  have hspec : counterExpectedSpec = 100 := by decide
  refine ⟨?_, ?_, ?_, ?_, ?_⟩
  · simp [counterVerify, hspec, h100]
  · simp [counterVerify, h100]
  · simp [counterVerify, h100]
  · simp [counterVerify, h100]
  · intro h
    simp [counterVerify, h100]
    omega

/-- C4 witness: an actual of 150, above the expected 100, is not reported
as a race. -/
theorem counter_race_verification_witness :
    (counterVerify 150).raceDetected = false :=
  (counter_race_verification 150).2.2.2.2 (by norm_num)

/-- C5 counterexample: a final balance of 1300 (initial - actual = -300, an
exact negative multiple of the 300 withdrawal amount, so no non-negative
integer successCount fits) must be flagged under the claim, but
`demonstrateBankRace` reports no race for it: the remainder test
`successfulWithdrawals % 1 !== 0` accepts the integer quotient -1. -/
theorem bank_negative_multiple_unflagged :
    bankRaceDetected 1300 = false ∧ bankRaceClaimRequired 1300 := by
  constructor
  · decide
  · refine Or.inr (Or.inr ?_)
    rintro ⟨s, hs⟩
    simp [INITIAL_BALANCE, withdrawAmount] at hs
    omega

/-- C5 amended: the bank-account race verification reports a race exactly
when the final balance is negative, or initial - actual exceeds the initial
balance, or initial - actual is not successCount * withdrawAmount for any
integer successCount (possibly negative): fractional multiples are flagged,
but a balance exceeding the initial by an exact multiple of the withdrawal
amount is accepted. -/
theorem bank_race_verification (actual : Int) :
    bankRaceDetected actual = true ↔
      (actual < 0 ∨ INITIAL_BALANCE - actual > INITIAL_BALANCE ∨
        ¬ ∃ successCount : Int,
          INITIAL_BALANCE - actual = successCount * withdrawAmount) := by
  simp only [bankRaceDetected, Bool.or_eq_true, decide_eq_true_eq,
    Bool.not_eq_true', decide_eq_false_iff_not, dvd_iff_exists_eq_mul_left]
  tauto

/-- C6 counterexample: with the resource artifact present and a lock marker
left on disk (for example by a crashed worker), the orchestrator's teardown
removes the resource artifact but the lock marker remains, contradicting
the claim that after teardown neither the resource file nor the lock marker
file remains. -/
theorem teardown_keeps_lock_marker :
    (demoTeardown RunPath.success ⟨some "counter-state", some "1234"⟩).resourceFile
      = none ∧
    (demoTeardown RunPath.success ⟨some "counter-state", some "1234"⟩).lockMarker
      = some "1234" := by
  constructor <;> rfl

/-- C6 amended: on both the success and the failure path of a harness run,
teardown is invoked and removes the durable resource artifact; lock markers
are not removed by teardown (the orchestrators' cleanup helpers unlink only
the resource file, and never call the mutex's cleanup), so after teardown
the lock marker cell is whatever it was before. -/
theorem teardown_both_paths (p : RunPath) (fs : DemoFiles) :
    (demoTeardown p fs).resourceFile = none ∧
    (demoTeardown p fs).lockMarker = fs.lockMarker := by
  cases p <;> rcases fs with ⟨_ | r, l⟩ <;> simp [demoTeardown, Harness.cleanup]

/-- C7 counterexample: a mid-run read of a missing or corrupt artifact is
not surfaced as a read failure: the counter orchestrator's read helper
returns the defined zero state (the same value initialization writes), and
the bank orchestrator's returns the empty account list, where the claimed
policy (modelled from the spec) yields an error. -/
theorem midrun_read_defaults :
    readCounter none = initialCounterState ∧
    readAccounts none = [] ∧
    readCounterClaimed none = Except.error "read failure" :=
  ⟨rfl, rfl, rfl⟩

/-- C7 amended: the harness read helpers default on every failed read, not
only at initialization time: a successful read agrees with the claimed
surface-the-failure policy, but a missing or corrupt artifact yields the
zero/empty default mid-run as well — the counter harness then verifies
against value 0 silently, while the bank harness only surfaces the problem
indirectly because looking up account 1 in the empty default fails. -/
theorem midrun_read_default_policy :
    (∀ st : CounterState, readCounterClaimed (some st)
      = Except.ok (readCounter (some st))) ∧
    readCounter none = initialCounterState ∧
    (∀ st : CounterState, readCounterClaimed none ≠ Except.ok st) ∧
    List.find? (fun a => a.id == 1) (readAccounts none) = none := by
  refine ⟨fun st => rfl, rfl, fun st h => ?_, rfl⟩
  exact Except.noConfusion h

/-- C8 counterexample: the mutex-protected counter worker whose single
repetition fails to acquire the lock performs no increment, completes its
loop, and exits with status 0 — not the non-zero status the claim requires;
the bank withdrawer does exit with status 1 on the same failure. -/
theorem acquire_failure_exits_zero :
    counterMutexWorker [false] = (0, 0) ∧ withdrawerMutexExit false = 1 :=
  ⟨rfl, rfl⟩

/-- C8 amended: on lock-acquisition failure the two mutex-protected workers
diverge: the bank withdrawer exits with status 1, while the counter worker
logs the failure, skips that repetition (contributing no increment for it),
and always completes with exit status 0 regardless of how many of its
acquires failed. -/
theorem worker_exit_status (acq : List Bool) :
    (counterMutexWorker acq).2 = 0 ∧
    (counterMutexWorker acq).1 = acq.count true ∧
    withdrawerMutexExit false = 1 ∧
    withdrawerMutexExit true = 0 := by
  refine ⟨?_, ?_, rfl, rfl⟩
  · induction acq with
    | nil => rfl
    | cons b rest ih => cases b <;> simp [counterMutexWorker, ih]
  · induction acq with
    | nil => rfl
    | cons b rest ih =>
        cases b <;> simp [counterMutexWorker, List.count_cons, ih]

/-- C9: one iteration of `acquire` never overwrites or truncates an existing
lock marker: whatever the non-atomic `existsSync` pre-check observed, if the
file exists at the moment of the `wx` write the iteration leaves it intact
and retries; the iteration acquires exactly when the file was absent at both
observations, and then the resulting marker carries the caller's pid. -/
theorem acquire_never_overwrites (fsA fsB : FsCell) (pid : String) :
    (∀ c, fsB = some c → acquireAttempt fsA fsB pid = (AttemptStep.retry, some c)) ∧
    ((acquireAttempt fsA fsB pid).1 = AttemptStep.acquired ↔
      fsA = none ∧ fsB = none) ∧
    ((acquireAttempt fsA fsB pid).1 = AttemptStep.acquired →
      acquireAttempt fsA fsB pid = (AttemptStep.acquired, some pid)) := by
  rcases fsA with _ | a <;> rcases fsB with _ | b <;>
    simp [acquireAttempt, wxWrite]

/-- C9 witness: the pre-check sees no file but another process creates the
marker with content 9 before the `wx` write: the write throws, the marker
survives with content 9, and the iteration retries. -/
theorem acquire_never_overwrites_witness :
    acquireAttempt none (some "9") "42" = (AttemptStep.retry, some "9") :=
  (acquire_never_overwrites none (some "9") "42").1 "9" rfl

/-- C10: `FileMutex.release` and `FileMutex.cleanup` never throw to their
caller: for every outcome of the existence check, the marker read and the
unlink (each may fail arbitrarily) and every caller identity, both calls
return normally. -/
theorem release_cleanup_total (o : FsOracle) (pid : String) :
    releaseCall o pid = Except.ok () ∧ cleanupCall o = Except.ok () := by
  constructor
  · unfold releaseCall
    cases h : releaseBody o pid with
    | ok u => cases u; rfl
    | error e => rfl
  · unfold cleanupCall
    cases h : cleanupBody o with
    | ok u => cases u; rfl
    | error e => rfl
